import Mathlib

/-!
Shallow embedding of the speedcubing timer front end (SolverPage and the
cube-state entry page). The timer page is a React component; we embed it as
an explicit state machine: the component's `useState` values and `useRef`
cells become fields of `MachineState`, each event handler becomes a function
`MachineState → ℚ → MachineState` (the rational argument is the monotonic
clock reading, `performance.now()`, at the moment the handler runs), and the
browser event loop becomes a list of timed events folded over `timedStep`.

Modelling conventions:
* `requestAnimationFrame` loops are modelled by a Boolean "handle is
  registered" flag (`stopwatchOn`, `inspOn`) plus tick events that only have
  an effect while the flag is set; `cancelAnimationFrame` clears the flag.
* `window.setTimeout(cb, 500)` for arming is modelled by `armingDeadline`:
  `some dl` means a timeout is pending and will fire at clock time `dl`;
  `clearTimeout` and the timeout firing both reset it to `none`.
* `loading` mirrors the `loading` state and its `loadingRef`; the embedding
  treats the React state/ref propagation as synchronous. It is set when a
  save is dispatched (`saveSolveImmediately` runs `setLoading(true)` before
  its first await) and cleared by its `finally` clause, modelled by the
  `saveResolve` event (carrying success or failure, which both clear it).
* Clock readings are rationals (the browser supplies fractional
  milliseconds); `Math.floor` becomes `Rat.floor`.
* `validSeq` captures the browser's scheduling constraints: event times are
  nondecreasing, a pending arming timeout fires exactly at its deadline and
  no other event may be delivered at or after a pending deadline, tick
  events require their loop handle to be registered, and a save can only
  resolve while one is in flight.
-/

namespace SolverPage

/-- The `TimerState` union type of the page. -/
inductive TimerState where
  | idle
  | arming
  | ready
  | inspection
  | running
  | stopped
deriving DecidableEq, Repr

/-- `INSPECTION_MS = 15000`. -/
def INSPECTION_MS : ℚ := 15000

/-- `LATE_PLUS2_MS = 2000`. -/
def LATE_PLUS2_MS : ℚ := 2000

/-- `ARMING_THRESHOLD_MS = 500` (hold space for 500 ms to arm). -/
def ARMING_THRESHOLD_MS : ℚ := 500

/-- The `(timeMs, penalty)` pair handed to `saveSolveImmediately`. -/
structure SolvePayload where
  timeMs : ℤ
  penalty : String
deriving DecidableEq, Repr

/-- The component state of `SolverPage`: each field mirrors a `useState`
value or `useRef` cell that the timer logic reads or writes. -/
structure MachineState where
  timerState : TimerState
  loading : Bool
  inspectionEnabled : Bool
  spaceDownTime : ℚ
  armingDeadline : Option ℚ
  stopwatchOn : Bool
  startTime : ℚ
  inspOn : Bool
  inspStart : ℚ
  currentTime : ℤ
  inspectionMsLeft : ℚ
  inspectionOverMs : ℚ
  pendingSaves : List SolvePayload
deriving DecidableEq, Repr

/-- Initial component state: `useState('idle')`, `useState(false)` for
loading, `useState(true)` for the inspection preference, refs zeroed,
`useState(INSPECTION_MS)` for the countdown display. -/
def initState : MachineState where
  timerState := .idle
  loading := false
  inspectionEnabled := true
  spaceDownTime := 0
  armingDeadline := none
  stopwatchOn := false
  startTime := 0
  inspOn := false
  inspStart := 0
  currentTime := 0
  inspectionMsLeft := INSPECTION_MS
  inspectionOverMs := 0
  pendingSaves := []

/-- `stopInspection`: cancel the inspection animation-frame loop. -/
def stopInspection (s : MachineState) : MachineState :=
  { s with inspOn := false }

/-- `startTimer`: guarded by `loadingRef`; cancels any stopwatch frame loop,
records `performance.now()` as the start, enters `running`, zeroes the
display, and registers the stopwatch tick loop. -/
def startTimer (s : MachineState) (now : ℚ) : MachineState :=
  if s.loading then s
  else
    { s with
      stopwatchOn := true
      startTime := now
      timerState := .running
      currentTime := 0 }

/-- `startInspection`: guarded by `loadingRef`; cancels the stopwatch frame
loop and any inspection frame loop, records the inspection start, resets the
countdown display, enters `inspection`, and registers the inspection tick
loop. -/
def startInspection (s : MachineState) (now : ℚ) : MachineState :=
  if s.loading then s
  else
    { s with
      stopwatchOn := false
      inspOn := true
      inspStart := now
      inspectionMsLeft := INSPECTION_MS
      inspectionOverMs := 0
      timerState := .inspection }

/-- `beginSolveFromInspection`: guarded by `loadingRef`; stops the
inspection loop, then starts the stopwatch. -/
def beginSolveFromInspection (s : MachineState) (now : ℚ) : MachineState :=
  if s.loading then s
  else startTimer (stopInspection s) now

/-- The auto-penalty computation inside `stopTimer`:
`'OK'`, overwritten to `'DNF'` when inspection is enabled and
`inspectionOverMs > LATE_PLUS2_MS`, else to `'+2'` when inspection is
enabled and `inspectionOverMs > 0`. -/
def autoPenalty (inspectionEnabled : Bool) (overMs : ℚ) : String :=
  if inspectionEnabled && decide (LATE_PLUS2_MS < overMs) then "DNF"
  else if inspectionEnabled && decide (0 < overMs) then "+2"
  else "OK"

/-- `stopTimer`: cancels the stopwatch frame loop, computes
`finalTime = Math.floor(performance.now() - startTimeRef.current)`,
derives the auto-penalty, dispatches `saveSolveImmediately` (which sets
`loading` before its first await; the call is not awaited), then resets the
display to 0 and the state to `idle`. -/
def stopTimer (s : MachineState) (now : ℚ) : MachineState :=
  let finalTime : ℤ := (now - s.startTime).floor
  let pen := autoPenalty s.inspectionEnabled s.inspectionOverMs
  { s with
    stopwatchOn := false
    pendingSaves := s.pendingSaves ++ [⟨finalTime, pen⟩]
    loading := true
    currentTime := 0
    timerState := .idle }

/-- `handleSpaceDown`: no-op while `loadingRef` is set; from `idle` records
the press time, enters `arming` and schedules the 500 ms arming timeout;
from `inspection` begins the solve; from `running` stops the timer; ignored
in every other state. -/
def handleSpaceDown (s : MachineState) (now : ℚ) : MachineState :=
  if s.loading then s
  else
    match s.timerState with
    | .idle =>
        { s with
          spaceDownTime := now
          timerState := .arming
          armingDeadline := some (now + ARMING_THRESHOLD_MS) }
    | .inspection => beginSolveFromInspection s now
    | .running => stopTimer s now
    | _ => s

/-- `handleSpaceUp`: no-op while `loadingRef` is set; always clears any
pending arming timeout; from `arming` (released early) returns to `idle`;
from `ready` starts inspection when the preference is enabled, else starts
the stopwatch. -/
def handleSpaceUp (s : MachineState) (now : ℚ) : MachineState :=
  if s.loading then s
  else
    let s1 := { s with armingDeadline := none }
    match s.timerState with
    | .arming => { s1 with timerState := .idle }
    | .ready =>
        if s.inspectionEnabled then startInspection s1 now
        else startTimer s1 now
    | _ => s1

/-- The arming timeout callback: fires when its deadline is reached (the
pending timeout is consumed) and moves `arming` to `ready`; if the state is
no longer `arming` it does nothing. -/
def armTimeoutFire (s : MachineState) : MachineState :=
  { s with
    armingDeadline := none
    timerState := if s.timerState = .arming then .ready else s.timerState }

/-- `handleManualStart` (the Start/Stop button): no-op while `loading`; from
`idle` starts inspection (preference enabled) or the stopwatch directly;
from `inspection` begins the solve; from `running` stops the timer. -/
def handleManualStart (s : MachineState) (now : ℚ) : MachineState :=
  if s.loading then s
  else
    match s.timerState with
    | .idle =>
        if s.inspectionEnabled then startInspection s now
        else startTimer s now
    | .inspection => beginSolveFromInspection s now
    | .running => stopTimer s now
    | _ => s

/-- One stopwatch tick: while the stopwatch frame loop is registered,
publishes `Math.floor(performance.now() - startTimeRef.current)`. -/
def stopwatchTick (s : MachineState) (now : ℚ) : MachineState :=
  if s.stopwatchOn then { s with currentTime := (now - s.startTime).floor }
  else s

/-- One inspection tick: while the inspection frame loop is registered,
publishes `max(0, INSPECTION_MS - elapsed)` and
`max(0, elapsed - INSPECTION_MS)`. -/
def inspectionTick (s : MachineState) (now : ℚ) : MachineState :=
  if s.inspOn then
    { s with
      inspectionMsLeft := max 0 (INSPECTION_MS - (now - s.inspStart))
      inspectionOverMs := max 0 ((now - s.inspStart) - INSPECTION_MS) }
  else s

/-- The `finally` clause of `saveSolveImmediately` resolving (with success
or failure): `setLoading(false)`. -/
def saveResolveStep (s : MachineState) : MachineState :=
  { s with loading := false }

/-- `toggleInspection` (the Inspection ON/OFF button). -/
def toggleInspection (s : MachineState) : MachineState :=
  { s with inspectionEnabled := !s.inspectionEnabled }

/-- Component unmount cleanup: cancels both frame loops and any pending
arming timeout. -/
def teardown (s : MachineState) : MachineState :=
  { s with stopwatchOn := false, inspOn := false, armingDeadline := none }

/-- The events the page reacts to. -/
inductive Ev where
  | spaceDown
  | spaceUp
  | armFire
  | manualStart
  | tick
  | inspTick
  | saveResolve (ok : Bool)
  | toggle
  | unmount
deriving DecidableEq, Repr

/-- A timed event: the event together with the monotonic clock reading at
which it is delivered. -/
def TEvent := Ev × ℚ

/-- Dispatch one timed event to the corresponding handler. -/
def timedStep (s : MachineState) (e : TEvent) : MachineState :=
  match e.1 with
  | .spaceDown => handleSpaceDown s e.2
  | .spaceUp => handleSpaceUp s e.2
  | .armFire => armTimeoutFire s
  | .manualStart => handleManualStart s e.2
  | .tick => stopwatchTick s e.2
  | .inspTick => inspectionTick s e.2
  | .saveResolve _ => saveResolveStep s
  | .toggle => toggleInspection s
  | .unmount => teardown s

/-- No pending arming timeout is already due at time `t`: a non-timeout
event may only be delivered strictly before a pending deadline. -/
def noDueTimeout (s : MachineState) (t : ℚ) : Bool :=
  match s.armingDeadline with
  | some dl => decide (t < dl)
  | none => true

/-- Whether a single event may be delivered in state `s` at time `t` under
the browser's scheduling rules. -/
def validEv (s : MachineState) (e : Ev) (t : ℚ) : Bool :=
  match e with
  | .armFire => decide (s.armingDeadline = some t)
  | .tick => s.stopwatchOn && noDueTimeout s t
  | .inspTick => s.inspOn && noDueTimeout s t
  | .saveResolve _ => s.loading && noDueTimeout s t
  | .toggle => decide (s.timerState ≠ .running) && noDueTimeout s t
  | _ => noDueTimeout s t

/-- A schedulable event sequence from state `s`, all times at least `t0` and
nondecreasing, each event deliverable when its turn comes. -/
def validSeq (s : MachineState) (t0 : ℚ) : List TEvent → Bool
  | [] => true
  | e :: rest =>
      decide (t0 ≤ e.2) && validEv s e.1 e.2 &&
        validSeq (timedStep s e) e.2 rest

/-- States reachable from the initial component state by any sequence of
events. -/
inductive Reachable : MachineState → Prop where
  | init : Reachable initState
  | step {s : MachineState} (e : TEvent) : Reachable s → Reachable (timedStep s e)

/-- The primitive effects a handler performs, in program order, used to
state ordering facts about the source that pure state functions cannot
express. -/
inductive Effect where
  | cancelStopwatchRaf
  | cancelInspectionRaf
  | clearArmingTimeout
  | computeElapsed
  | computePenalty
  | dispatchSaveAsync
  | awaitSave
  | setCurrentTimeZero
  | setStartTime
  | setInspStart
  | setStateIdle
  | setStateRunning
  | setStateInspection
  | registerStopwatchRaf
  | registerInspectionRaf
deriving DecidableEq, Repr

/-- The effects of `stopTimer`, in the order they appear in the source:
cancel the stopwatch frame loop, compute `finalTime` from the clock, derive
the penalty, dispatch the save without awaiting it, zero the display, set
the state to `idle`. -/
def stopTimerEffects : List Effect :=
  [.cancelStopwatchRaf, .computeElapsed, .computePenalty, .dispatchSaveAsync,
    .setCurrentTimeZero, .setStateIdle]

/-- The effects of `startTimer`, in source order. -/
def startTimerEffects : List Effect :=
  [.cancelStopwatchRaf, .setStartTime, .setStateRunning, .setCurrentTimeZero,
    .registerStopwatchRaf]

/-- The effects of `startInspection`, in source order. -/
def startInspectionEffects : List Effect :=
  [.cancelStopwatchRaf, .cancelInspectionRaf, .setInspStart,
    .setStateInspection, .registerInspectionRaf]

/-- The effects of `beginSolveFromInspection`, in source order: stop the
inspection loop, then run `startTimer`. -/
def beginSolveEffects : List Effect :=
  Effect.cancelInspectionRaf :: startTimerEffects

/-- Outcome of `handleRevealOptimalSolution`: silently ignored, rejected
with a surfaced error message, or a network call with the given state
encoding. -/
inductive RevealAction where
  | ignore
  | reject (msg : String)
  | call (stateEncoding : String)
deriving DecidableEq, Repr

/-- `handleRevealOptimalSolution`: returns early while the timer runs or a
save or solution request is in flight; returns early if the user declines
the confirmation dialog; rejects with an error when the stored scramble
state is missing (empty) or not exactly 54 characters; otherwise issues the
optimal-solution request. -/
def handleRevealOptimalSolution (timerState : TimerState)
    (loading solutionLoading confirmed : Bool)
    (scrambleState : String) : RevealAction :=
  if timerState = .running ∨ loading = true ∨ solutionLoading = true then
    .ignore
  else if confirmed = false then .ignore
  else if scrambleState = "" ∨ scrambleState.length ≠ 54 then
    .reject "Missing cube state for this scramble. (Expected 54 chars.)"
  else .call scrambleState

/-- The request body `saveSolveImmediately` passes to
`apiClient.createSolve`. -/
structure CreateSolveBody where
  scramble : String
  timeMs : ℤ
  penalty : Option String
  source : String
  event : String
  state : Option String
deriving DecidableEq, Repr

/-- The `createSolve` call inside `saveSolveImmediately`: the penalty field
is `null` exactly when the derived auto-penalty is `'OK'`, the source is
`'timer'`, the event `'3x3'`, and the state encoding is omitted when
empty. -/
def createSolveBody (scramble : String) (timeMs : ℤ) (pen : String)
    (scrambleState : String) : CreateSolveBody where
  scramble := scramble
  timeMs := timeMs
  penalty := if pen = "OK" then none else some pen
  source := "timer"
  event := "3x3"
  state := if scrambleState = "" then none else some scrambleState

/-- The penalty field of the `apiClient.updateSolve` call inside
`handleUpdateLastSolvePenalty`: `null` exactly when the chosen penalty is
`'OK'`. -/
def updateSolvePenaltyField (newPenalty : String) : Option String :=
  if newPenalty = "OK" then none else some newPenalty

/-- The §4.1 transition table of the spec, as (state, next state) edges:
idle→arming, arming→idle, arming→ready, ready→inspection, ready→running,
inspection→running, running→idle. -/
def tableEdges : List (TimerState × TimerState) :=
  [(.idle, .arming), (.arming, .idle), (.arming, .ready),
    (.ready, .inspection), (.ready, .running), (.inspection, .running),
    (.running, .idle)]

/-- The table extended with the two edges the manual Start button actually
takes from `idle`: directly to `inspection` (preference enabled) or directly
to `running` (preference disabled), bypassing `arming`/`ready`. -/
def amendedEdges : List (TimerState × TimerState) :=
  tableEdges ++ [(.idle, .inspection), (.idle, .running)]

/-- A registered clock loop is owned by its phase: the stopwatch loop only
runs in `running`, the inspection loop only in `inspection`. -/
def LoopStateInv (s : MachineState) : Prop :=
  (s.stopwatchOn = true → s.timerState = .running) ∧
    (s.inspOn = true → s.timerState = .inspection)

end SolverPage

namespace HomePage

/-- The `disabled` condition of the Solve Cube button on the cube-state
entry page: `isLoading || cubeState.length !== 54`. -/
def solveButtonDisabled (isLoading : Bool) (cubeState : String) : Bool :=
  isLoading || decide (cubeState.length ≠ 54)

end HomePage

namespace SolverPage

set_option maxHeartbeats 1000000 in
lemma loopInv_step (s : MachineState) (e : TEvent) (h : LoopStateInv s) :
    LoopStateInv (timedStep s e) := by
  obtain ⟨h1, h2⟩ := h
  rcases e with ⟨ev, t⟩
  rcases s with ⟨ts, ld, ie, sdt, ad, swOn, st, io, ist, ct, ml, om, ps⟩
  simp only [LoopStateInv] at h1 h2 ⊢
  cases ev <;> cases ts <;> cases ld <;> cases ie <;> cases swOn <;> cases io <;>
    simp_all [timedStep, handleSpaceDown, handleSpaceUp, armTimeoutFire,
      handleManualStart, stopwatchTick, inspectionTick, saveResolveStep,
      toggleInspection, teardown, beginSolveFromInspection, startTimer,
      startInspection, stopTimer, stopInspection]

end SolverPage

namespace SolverPage

lemma reachable_loopInv {s : MachineState} (h : Reachable s) : LoopStateInv s := by
  induction h with
  | init => exact ⟨fun h => by simp [initState] at h, fun h => by simp [initState] at h⟩
  | step e _ ih => exact loopInv_step _ e ih

set_option maxHeartbeats 1000000 in
lemma step_ne_stopped (s : MachineState) (e : TEvent)
    (h : s.timerState ≠ .stopped) : (timedStep s e).timerState ≠ .stopped := by
  rcases e with ⟨ev, t⟩
  rcases s with ⟨ts, ld, ie, sdt, ad, swOn, st, io, ist, ct, ml, om, ps⟩
  cases ev <;> cases ts <;> cases ld <;> cases ie <;> cases swOn <;> cases io <;>
    simp_all [timedStep, handleSpaceDown, handleSpaceUp, armTimeoutFire,
      handleManualStart, stopwatchTick, inspectionTick, saveResolveStep,
      toggleInspection, teardown, beginSolveFromInspection, startTimer,
      startInspection, stopTimer, stopInspection]

lemma reachable_ne_stopped {s : MachineState} (h : Reachable s) :
    s.timerState ≠ .stopped := by
  induction h with
  | init => simp [initState]
  | step e _ ih => exact step_ne_stopped _ e ih

end SolverPage

namespace SolverPage

/-- C1: for every completed timing, the auto-penalty saved with the solve is
determined by the inspection overrun: overrun 0 gives `"OK"`, overrun in
(0, 2000] gives `"+2"`, overrun above 2000 gives `"DNF"`; with inspection
disabled the penalty is `"OK"` regardless; `stopTimer` saves exactly this
penalty with the solve. -/
theorem auto_penalty_law (inspEnabled : Bool) (over : ℚ) (hover : 0 ≤ over) :
    (inspEnabled = false → autoPenalty inspEnabled over = "OK") ∧
    (over = 0 → autoPenalty inspEnabled over = "OK") ∧
    (inspEnabled = true → 0 < over → over ≤ LATE_PLUS2_MS →
      autoPenalty inspEnabled over = "+2") ∧
    (inspEnabled = true → LATE_PLUS2_MS < over →
      autoPenalty inspEnabled over = "DNF") ∧
    (∀ (s : MachineState) (t : ℚ), s.inspectionEnabled = inspEnabled →
      s.inspectionOverMs = over →
      (stopTimer s t).pendingSaves =
        s.pendingSaves ++
          [⟨(t - s.startTime).floor, autoPenalty inspEnabled over⟩]) := by
  refine ⟨?_, ?_, ?_, ?_, ?_⟩
  · rintro rfl
    simp [autoPenalty]
  · rintro rfl
    simp [autoPenalty, LATE_PLUS2_MS]
  · rintro rfl hpos hle
    simp [autoPenalty, hpos, not_lt.mpr hle]
  · rintro rfl hgt
    simp [autoPenalty, hgt]
  · intro s t h1 h2
    simp [stopTimer, h1, h2]

/-- Witness for C1 at a concrete overrun of 1000 ms with inspection
enabled. -/
theorem auto_penalty_law_witness :
    (0 : ℚ) ≤ 1000 ∧ autoPenalty true 1000 = "+2" :=
  ⟨by norm_num,
    (auto_penalty_law true 1000 (by norm_num)).2.2.1 rfl (by norm_num)
      (by norm_num [LATE_PLUS2_MS])⟩

/-- C2: while a save from a previous cycle is in flight (`loading`), the key
down, key up and manual start handlers leave the state completely unchanged
(no transition, no clock loop, no new save), and once the save resolves the
loading flag is cleared so normal input handling resumes. -/
theorem save_in_flight_guard (s : MachineState) (t : ℚ)
    (h : s.loading = true) :
    handleSpaceDown s t = s ∧ handleSpaceUp s t = s ∧
    handleManualStart s t = s ∧
    saveResolveStep s = { s with loading := false } ∧
    (saveResolveStep s).loading = false := by
  refine ⟨?_, ?_, ?_, rfl, rfl⟩ <;>
    simp [handleSpaceDown, handleSpaceUp, handleManualStart, h]

/-- Witness for C2 at a concrete in-flight state. -/
theorem save_in_flight_guard_witness :
    ({ initState with loading := true } : MachineState).loading = true ∧
    handleSpaceDown { initState with loading := true } 0 =
      { initState with loading := true } :=
  ⟨rfl, (save_in_flight_guard { initState with loading := true } 0 rfl).1⟩

/-- C3: the `running → idle` stop transition cancels the stopwatch loop
(its cancellation precedes the elapsed-time computation in program order),
hands the save collaborator exactly the clock difference at the stop event
floored to the millisecond, never awaits the save, resets the state to
`idle` at once, and later stopwatch ticks cannot alter the stopped state. -/
theorem stop_sequence (s : MachineState) (t : ℚ) :
    (stopTimer s t).timerState = .idle ∧
    (stopTimer s t).stopwatchOn = false ∧
    (stopTimer s t).pendingSaves =
      s.pendingSaves ++
        [⟨(t - s.startTime).floor,
          autoPenalty s.inspectionEnabled s.inspectionOverMs⟩] ∧
    (∀ u : ℚ, stopwatchTick (stopTimer s t) u = stopTimer s t) ∧
    List.indexOf Effect.cancelStopwatchRaf stopTimerEffects <
      List.indexOf Effect.computeElapsed stopTimerEffects ∧
    Effect.awaitSave ∉ stopTimerEffects ∧
    Effect.setStateIdle ∈ stopTimerEffects := by
  refine ⟨rfl, rfl, rfl, ?_, by decide, by decide, by decide⟩
  intro u
  simp [stopwatchTick, stopTimer]

/-- C9: both the `createSolve` call after a timing and the `updateSolve`
call for retroactive correction transmit a derived `"OK"` penalty as a null
field and transmit `"+2"` and `"DNF"` literally, through the same
mapping. -/
theorem penalty_wire_mapping :
    (∀ (sc st : String) (tm : ℤ) (p : String),
      (createSolveBody sc tm p st).penalty =
        if p = "OK" then none else some p) ∧
    (∀ p : String,
      updateSolvePenaltyField p = if p = "OK" then none else some p) ∧
    (∀ (sc st : String) (tm : ℤ) (p : String),
      (createSolveBody sc tm p st).penalty = updateSolvePenaltyField p) ∧
    (∀ (sc st : String) (tm : ℤ),
      (createSolveBody sc tm "OK" st).penalty = none ∧
      (createSolveBody sc tm "+2" st).penalty = some "+2" ∧
      (createSolveBody sc tm "DNF" st).penalty = some "DNF") ∧
    updateSolvePenaltyField "OK" = none ∧
    updateSolvePenaltyField "+2" = some "+2" ∧
    updateSolvePenaltyField "DNF" = some "DNF" := by
  refine ⟨fun sc st tm p => rfl, fun p => rfl, fun sc st tm p => rfl,
    fun sc st tm => ⟨?_, ?_, ?_⟩, ?_, ?_, ?_⟩ <;>
    simp [createSolveBody, updateSolvePenaltyField]

end SolverPage

namespace SolverPage

/-- C4 counterexample: from the (reachable) initial `idle` state with the
inspection preference enabled, the manual Start button transitions directly
to `inspection` — an edge outside the §4.1 transition table. -/
theorem manual_start_off_table :
    initState.timerState = TimerState.idle ∧
    (timedStep initState (Ev.manualStart, 0)).timerState =
      TimerState.inspection ∧
    (TimerState.idle, TimerState.inspection) ∉ tableEdges :=
  ⟨rfl, rfl, by decide⟩

set_option maxHeartbeats 1000000 in
/-- C4 amended: for every state and event, the timer state either stays put
or moves along an edge of the §4.1 table extended with the two manual-start
edges `idle→inspection` and `idle→running`. -/
theorem transitions_within_amended_table (s : MachineState) (e : TEvent) :
    (timedStep s e).timerState = s.timerState ∨
    (s.timerState, (timedStep s e).timerState) ∈ amendedEdges := by
  rcases e with ⟨ev, t⟩
  rcases s with ⟨ts, ld, ie, sdt, ad, swOn, st, io, ist, ct, ml, om, ps⟩
  cases ev <;> cases ts <;> cases ld <;> cases ie <;> cases swOn <;> cases io <;>
    simp_all [timedStep, handleSpaceDown, handleSpaceUp, armTimeoutFire,
      handleManualStart, stopwatchTick, inspectionTick, saveResolveStep,
      toggleInspection, teardown, beginSolveFromInspection, startTimer,
      startInspection, stopTimer, stopInspection, amendedEdges, tableEdges]

/-- C7: on every reachable state at most one clock loop is registered;
`startInspection` leaves only the inspection loop registered and
`beginSolveFromInspection` only the stopwatch loop; and in program order
every loop-starting operation performs its cancellations before registering
the new handle. -/
theorem one_clock_loop (s : MachineState) (h : Reachable s) :
    ¬(s.stopwatchOn = true ∧ s.inspOn = true) ∧
    (∀ t : ℚ, s.loading = false →
      (startInspection s t).inspOn = true ∧
      (startInspection s t).stopwatchOn = false) ∧
    (∀ t : ℚ, s.loading = false →
      (beginSolveFromInspection s t).stopwatchOn = true ∧
      (beginSolveFromInspection s t).inspOn = false) ∧
    List.indexOf Effect.cancelStopwatchRaf startTimerEffects <
      List.indexOf Effect.registerStopwatchRaf startTimerEffects ∧
    List.indexOf Effect.cancelStopwatchRaf startInspectionEffects <
      List.indexOf Effect.registerInspectionRaf startInspectionEffects ∧
    List.indexOf Effect.cancelInspectionRaf startInspectionEffects <
      List.indexOf Effect.registerInspectionRaf startInspectionEffects ∧
    List.indexOf Effect.cancelInspectionRaf beginSolveEffects <
      List.indexOf Effect.registerStopwatchRaf beginSolveEffects := by
  have hinv := reachable_loopInv h
  refine ⟨?_, ?_, ?_, by decide, by decide, by decide, by decide⟩
  · rintro ⟨h1, h2⟩
    have hr := hinv.1 h1
    have hi := hinv.2 h2
    rw [hr] at hi
    exact TimerState.noConfusion hi
  · intro t hl
    simp [startInspection, hl]
  · intro t hl
    simp [beginSolveFromInspection, startTimer, stopInspection, hl]

/-- Witness for C7 at the (reachable) initial state. -/
theorem one_clock_loop_witness :
    ¬(initState.stopwatchOn = true ∧ initState.inspOn = true) :=
  (one_clock_loop initState Reachable.init).1

/-- C10: the declared `'stopped'` member of the state union is dead: no
reachable state of the component carries it. -/
theorem stopped_state_unreachable (s : MachineState) (h : Reachable s) :
    s.timerState ≠ TimerState.stopped :=
  reachable_ne_stopped h

/-- Witness for C10 at the initial state. -/
theorem stopped_state_unreachable_witness :
    initState.timerState ≠ TimerState.stopped :=
  stopped_state_unreachable initState Reachable.init

end SolverPage

namespace SolverPage

/-- C5: a hold strictly shorter than 500 ms followed by release is a valid
schedule whose states go `idle → arming → idle`, never reaching `ready`;
the release clears the pending arming timeout, and the timeout could only
ever have fired exactly 500 ms after the press. -/
theorem short_hold_roundtrip (s : MachineState) (t0 d : ℚ)
    (hidle : s.timerState = TimerState.idle) (hl : s.loading = false)
    (hdl : s.armingDeadline = none) (hd0 : 0 ≤ d)
    (hd : d < ARMING_THRESHOLD_MS) :
    validSeq s t0 [(Ev.spaceDown, t0), (Ev.spaceUp, t0 + d)] = true ∧
    (handleSpaceDown s t0).timerState = TimerState.arming ∧
    (handleSpaceDown s t0).timerState ≠ TimerState.ready ∧
    (handleSpaceUp (handleSpaceDown s t0) (t0 + d)).timerState =
      TimerState.idle ∧
    (handleSpaceUp (handleSpaceDown s t0) (t0 + d)).armingDeadline = none ∧
    (∀ u : ℚ, validEv (handleSpaceDown s t0) Ev.armFire u = true →
      u = t0 + ARMING_THRESHOLD_MS) := by
  have hdown : handleSpaceDown s t0 =
      { s with
        spaceDownTime := t0
        timerState := .arming
        armingDeadline := some (t0 + ARMING_THRESHOLD_MS) } := by
    simp [handleSpaceDown, hl, hidle]
  refine ⟨?_, ?_, ?_, ?_, ?_, ?_⟩
  · simp only [validSeq, timedStep, validEv, noDueTimeout, hdown, hdl,
      Bool.and_eq_true, decide_eq_true_eq]
    repeat' apply And.intro
    all_goals first | trivial | linarith
  · rw [hdown]
  · rw [hdown]
    exact fun hcontra => TimerState.noConfusion hcontra
  · rw [hdown]
    simp [handleSpaceUp, hl]
  · rw [hdown]
    simp [handleSpaceUp, hl]
  · intro u hu
    rw [hdown] at hu
    simp only [validEv, decide_eq_true_eq, Option.some.injEq] at hu
    exact hu.symm

/-- Witness for C5 with a 100 ms hold from the initial state. -/
theorem short_hold_roundtrip_witness :
    (0 : ℚ) ≤ 100 ∧
    (handleSpaceUp (handleSpaceDown initState 0) (0 + 100)).timerState =
      TimerState.idle :=
  ⟨by norm_num,
    (short_hold_roundtrip initState 0 100 rfl rfl rfl (by norm_num)
      (by norm_num [ARMING_THRESHOLD_MS])).2.2.2.1⟩

/-- C6: a hold of at least 500 ms is a valid schedule in which the arming
timeout fires and the state reaches `ready`; the release then enters
`inspection` (starting the inspection loop) when the preference is enabled,
and enters `running` directly (starting the stopwatch, never visiting
`inspection`) when it is disabled. -/
theorem long_hold_reaches_ready (s : MachineState) (t0 d : ℚ)
    (hidle : s.timerState = TimerState.idle) (hl : s.loading = false)
    (hdl : s.armingDeadline = none) (hd : ARMING_THRESHOLD_MS ≤ d) :
    validSeq s t0
      [(Ev.spaceDown, t0), (Ev.armFire, t0 + ARMING_THRESHOLD_MS),
        (Ev.spaceUp, t0 + d)] = true ∧
    (handleSpaceDown s t0).timerState = TimerState.arming ∧
    (armTimeoutFire (handleSpaceDown s t0)).timerState = TimerState.ready ∧
    (s.inspectionEnabled = true →
      (handleSpaceUp (armTimeoutFire (handleSpaceDown s t0))
          (t0 + d)).timerState = TimerState.inspection ∧
      (handleSpaceUp (armTimeoutFire (handleSpaceDown s t0))
          (t0 + d)).inspOn = true) ∧
    (s.inspectionEnabled = false →
      (handleSpaceUp (armTimeoutFire (handleSpaceDown s t0))
          (t0 + d)).timerState = TimerState.running ∧
      (handleSpaceUp (armTimeoutFire (handleSpaceDown s t0))
          (t0 + d)).stopwatchOn = true ∧
      (handleSpaceDown s t0).timerState ≠ TimerState.inspection ∧
      (armTimeoutFire (handleSpaceDown s t0)).timerState ≠
        TimerState.inspection ∧
      (handleSpaceUp (armTimeoutFire (handleSpaceDown s t0))
          (t0 + d)).timerState ≠ TimerState.inspection) := by
  have hdown : handleSpaceDown s t0 =
      { s with
        spaceDownTime := t0
        timerState := .arming
        armingDeadline := some (t0 + ARMING_THRESHOLD_MS) } := by
    simp [handleSpaceDown, hl, hidle]
  have hfire : armTimeoutFire (handleSpaceDown s t0) =
      { s with
        spaceDownTime := t0
        timerState := .ready
        armingDeadline := none } := by
    rw [hdown]
    simp [armTimeoutFire]
  have h500 : (0 : ℚ) < ARMING_THRESHOLD_MS := by
    norm_num [ARMING_THRESHOLD_MS]
  refine ⟨?_, ?_, ?_, ?_, ?_⟩
  · simp only [validSeq, timedStep, validEv, noDueTimeout, hdown, hfire,
      hdl, Bool.and_eq_true, decide_eq_true_eq]
    repeat' apply And.intro
    all_goals first | trivial | linarith
  · rw [hdown]
  · rw [hfire]
  · intro hie
    rw [hfire]
    simp [handleSpaceUp, startInspection, hl, hie]
  · intro hie
    rw [hfire]
    refine ⟨?_, ?_, ?_, ?_, ?_⟩ <;>
      simp [handleSpaceUp, startTimer, hl, hie, hdown]

/-- Witness for C6 with a 600 ms hold from the initial state (inspection
enabled). -/
theorem long_hold_reaches_ready_witness :
    ARMING_THRESHOLD_MS ≤ (600 : ℚ) ∧
    (handleSpaceUp (armTimeoutFire (handleSpaceDown initState 0))
        (0 + 600)).timerState = TimerState.inspection :=
  ⟨by norm_num [ARMING_THRESHOLD_MS],
    ((long_hold_reaches_ready initState 0 600 rfl rfl rfl
      (by norm_num [ARMING_THRESHOLD_MS])).2.2.2.1 rfl).1⟩

/-- C8: with no request in flight, the timer not running, and the user
confirming the spoiler dialog, a missing or non-54-character state encoding
makes `handleRevealOptimalSolution` surface an error and skip the network
call, while a 54-character encoding leads to the call; the cube-entry
page's Solve button is likewise enabled only for 54-character input. -/
theorem optimal_solution_validation (ts : TimerState) (st : String)
    (hts : ts ≠ TimerState.running) :
    (st.length ≠ 54 →
      handleRevealOptimalSolution ts false false true st =
        RevealAction.reject
          "Missing cube state for this scramble. (Expected 54 chars.)") ∧
    (st.length = 54 →
      handleRevealOptimalSolution ts false false true st =
        RevealAction.call st) ∧
    (∀ (il : Bool) (cs : String),
      HomePage.solveButtonDisabled il cs = false ↔
        il = false ∧ cs.length = 54) := by
  refine ⟨?_, ?_, ?_⟩
  · intro hlen
    simp [handleRevealOptimalSolution, hts, hlen]
  · intro hlen
    have hne : st ≠ "" := by
      intro hcontra
      rw [hcontra] at hlen
      simp at hlen
    simp [handleRevealOptimalSolution, hts, hlen, hne]
  · intro il cs
    cases il <;> simp [HomePage.solveButtonDisabled]

/-- Witness for C8 at the solved-cube 54-character encoding. -/
theorem optimal_solution_validation_witness :
    TimerState.idle ≠ TimerState.running ∧
    handleRevealOptimalSolution TimerState.idle false false true
        "UUUUUUUUURRRRRRRRRFFFFFFFFFDDDDDDDDDLLLLLLLLLBBBBBBBBB" =
      RevealAction.call
        "UUUUUUUUURRRRRRRRRFFFFFFFFFDDDDDDDDDLLLLLLLLLBBBBBBBBB" :=
  ⟨fun hcontra => TimerState.noConfusion hcontra,
    (optimal_solution_validation TimerState.idle
      "UUUUUUUUURRRRRRRRRFFFFFFFFFDDDDDDDDDLLLLLLLLLBBBBBBBBB"
      (fun hcontra => TimerState.noConfusion hcontra)).2.1 rfl⟩

end SolverPage

namespace SolverPage

/-- Witness for C3 at a concrete stop event. -/
theorem stop_sequence_witness :
    (stopTimer initState 5).timerState = TimerState.idle :=
  (stop_sequence initState 5).1

/-- Witness for C9 at concrete call-site arguments. -/
theorem penalty_wire_mapping_witness :
    (createSolveBody "R U R\x27" 8123 "OK" "").penalty = none :=
  (penalty_wire_mapping.2.2.2.1 "R U R\x27" "" 8123).1

/-- Witness for the amended C4 at a concrete event. -/
theorem transitions_within_amended_table_witness :
    (timedStep initState (Ev.spaceDown, 0)).timerState =
        initState.timerState ∨
      (initState.timerState,
        (timedStep initState (Ev.spaceDown, 0)).timerState) ∈ amendedEdges :=
  transitions_within_amended_table initState (Ev.spaceDown, 0)

end SolverPage
